import Mathlib

/-!
Shallow embedding of the brainfuck interpreter in src/src/main.rs
(wgreenberg/rs-brainfuck) and verification of its specification.

Modelling conventions:
- `u8` cell values are `Nat` with arithmetic taken modulo 256 where the
  source uses `overflowing_add` / `overflowing_sub`.
- `usize` values are `Nat`; at the two places where the source performs
  `usize` arithmetic that can wrap (the `pc - 1` in the `]` arm and the
  common `pc + 1` increment of the dispatch loop, and `pointer += 1` in
  `right`), we take the result modulo `2^64`, matching release-build
  wrap-around semantics.
- `Result<(), BfError>` with in-place mutation becomes explicit state
  passing; `.unwrap()` / `.expect(...)` panics become a distinct `panic`
  outcome; the dispatch loop is given explicit fuel, exhausting it yields
  a distinct `timeout` outcome (not a behaviour of the source).
- stdin is a list of bytes consumed by `,`; stdout is a list of bytes
  accumulated by `.`.
-/

inductive BfError where
  | MismatchedBraces
  | Segfault
deriving DecidableEq, Repr

/-- `GrowableVect`: a `Vec<u8>` plus a default value returned for reads past
the end; writes past the end resize (filling with the default). -/
structure GrowableVect where
  arr : List Nat
  default_value : Nat
deriving DecidableEq, Repr

/-- `Index for GrowableVect` (main.rs lines 31-40): out-of-range reads give
the default value. -/
def GrowableVect.read (v : GrowableVect) (index : Nat) : Nat :=
  if index ≥ v.arr.length then v.default_value else v.arr.getD index 0

/-- `Vec::resize(new_len, value)`: truncate or extend with `value`. In the
source it is only reached with `new_len > len`, so only the extend branch
fires. -/
def listResize (l : List Nat) (newLen : Nat) (value : Nat) : List Nat :=
  if newLen ≤ l.length then l.take newLen
  else l ++ List.replicate (newLen - l.length) value

/-- `IndexMut for GrowableVect` followed by assignment (main.rs lines 42-49):
resize to `index + 1` with the default if needed, then store `value`. -/
def GrowableVect.write (v : GrowableVect) (index : Nat) (value : Nat) : GrowableVect :=
  let arr := if index ≥ v.arr.length
    then listResize v.arr (index + 1) v.default_value
    else v.arr
  { v with arr := arr.set index value }

/-- `GrowableVect::new()`: empty backing vector, default value 0. -/
def GrowableVect.new : GrowableVect :=
  { arr := [], default_value := 0 }

structure BfState where
  memory : GrowableVect
  pointer : Nat
deriving DecidableEq, Repr

/-- `BfState::new()`: fresh tape, pointer 0. -/
def BfState.new : BfState :=
  { memory := GrowableVect.new, pointer := 0 }

/-- usize width used for wrap-around of pointer / pc arithmetic. -/
def USIZE : Nat := 2 ^ 64

def BfState.curr (s : BfState) : Nat :=
  s.memory.read s.pointer

def BfState.set_curr (s : BfState) (value : Nat) : BfState :=
  { s with memory := s.memory.write s.pointer value }

/-- `BfState::inc`: `overflowing_add(1)` on a `u8`. -/
def BfState.inc (s : BfState) : BfState :=
  s.set_curr ((s.curr + 1) % 256)

/-- `BfState::dec`: `overflowing_sub(1)` on a `u8`. -/
def BfState.dec (s : BfState) : BfState :=
  s.set_curr ((s.curr + 255) % 256)

/-- `BfState::left`: error (state untouched) at pointer 0, else decrement.
Returned as (state after the call, returned result). -/
def BfState.left (s : BfState) : BfState × Except BfError Unit :=
  if s.pointer = 0 then (s, Except.error BfError.Segfault)
  else ({ s with pointer := s.pointer - 1 }, Except.ok ())

/-- `BfState::right`: `pointer += 1` (usize). -/
def BfState.right (s : BfState) : BfState :=
  { s with pointer := (s.pointer + 1) % USIZE }

/-- Recursion of `build_pc_pairs` over the program, carrying the byte index
(the source iterates `program.char_indices()`, whose indices are UTF-8 byte
offsets), the stack of pending open offsets, and the pairs pushed so far. -/
def build_pc_pairs_aux : List Char → Nat → List Nat → List (Nat × Nat) →
    Except BfError (List (Nat × Nat))
  | [], _, stack, pairs =>
    if stack.isEmpty then Except.ok pairs else Except.error BfError.MismatchedBraces
  | c :: rest, index, stack, pairs =>
    if c = '[' then
      build_pc_pairs_aux rest (index + c.utf8Size) (index :: stack) pairs
    else if c = ']' then
      match stack with
      | [] => Except.error BfError.MismatchedBraces
      | left_pc :: stack' =>
        build_pc_pairs_aux rest (index + c.utf8Size) stack' (pairs ++ [(left_pc, index)])
    else
      build_pc_pairs_aux rest (index + c.utf8Size) stack pairs

/-- `build_pc_pairs` (main.rs lines 130-152). -/
def build_pc_pairs (program : List Char) : Except BfError (List (Nat × Nat)) :=
  build_pc_pairs_aux program 0 [] []

/-- `match_left_pc` (main.rs lines 154-161): first pair whose open offset
matches. -/
def match_left_pc : List (Nat × Nat) → Nat → Option Nat
  | [], _ => none
  | pair :: rest, left_pc =>
    if pair.1 = left_pc then some pair.2 else match_left_pc rest left_pc

/-- `match_right_pc` (main.rs lines 163-170): first pair whose close offset
matches. -/
def match_right_pc : List (Nat × Nat) → Nat → Option Nat
  | [], _ => none
  | pair :: rest, right_pc =>
    if pair.2 = right_pc then some pair.1 else match_right_pc rest right_pc

/-- Result of one iteration of the dispatch loop. -/
inductive StepResult where
  | cont (pc : Nat) (st : BfState) (inp out : List Nat)
  | fail (e : BfError) (st : BfState) (inp out : List Nat)
  | panic
deriving DecidableEq, Repr

/-- One iteration of the `while pc < symbols.len()` body of `run`
(main.rs lines 180-206): dispatch on the symbol at `pc`, abort on `Err`,
otherwise apply the common `pc = pc + 1`. The `]` arm models the usize
`unwrap() - 1` with wrap-around; a failed `unwrap` of a pairing lookup is a
panic, as is `read()` on exhausted stdin. -/
def step (symbols : List Char) (pairs : List (Nat × Nat)) (pc : Nat)
    (st : BfState) (inp out : List Nat) : StepResult :=
  let sym := symbols.getD pc ' '
  if sym = '+' then StepResult.cont ((pc + 1) % USIZE) st.inc inp out
  else if sym = '-' then StepResult.cont ((pc + 1) % USIZE) st.dec inp out
  else if sym = '>' then StepResult.cont ((pc + 1) % USIZE) st.right inp out
  else if sym = '<' then
    match st.left with
    | (st', Except.ok _) => StepResult.cont ((pc + 1) % USIZE) st' inp out
    | (st', Except.error e) => StepResult.fail e st' inp out
  else if sym = ',' then
    match inp with
    | [] => StepResult.panic
    | b :: rest => StepResult.cont ((pc + 1) % USIZE) (st.set_curr b) rest out
  else if sym = '.' then
    StepResult.cont ((pc + 1) % USIZE) st inp (out ++ [st.curr])
  else if sym = '[' then
    if st.curr = 0 then
      match match_left_pc pairs pc with
      | none => StepResult.panic
      | some close_pc => StepResult.cont ((close_pc + 1) % USIZE) st inp out
    else StepResult.cont ((pc + 1) % USIZE) st inp out
  else if sym = ']' then
    match match_right_pc pairs pc with
    | none => StepResult.panic
    | some openPc =>
      StepResult.cont (((openPc + (USIZE - 1)) % USIZE + 1) % USIZE) st inp out
  else StepResult.cont ((pc + 1) % USIZE) st inp out

/-- Terminal result of `run`: `ok` / `err` carry the final state, the
remaining input and the emitted output. -/
inductive Outcome where
  | ok (st : BfState) (inp out : List Nat)
  | err (e : BfError) (st : BfState) (inp out : List Nat)
  | panic
  | timeout
deriving DecidableEq, Repr

/-- The dispatch loop of `run`, fuel-indexed. -/
def runAux : Nat → List Char → List (Nat × Nat) → Nat → BfState →
    List Nat → List Nat → Outcome
  | 0, _, _, _, _, _, _ => Outcome.timeout
  | fuel + 1, symbols, pairs, pc, st, inp, out =>
    if pc < symbols.length then
      match step symbols pairs pc st inp out with
      | StepResult.cont pc' st' inp' out' => runAux fuel symbols pairs pc' st' inp' out'
      | StepResult.fail e st' inp' out' => Outcome.err e st' inp' out'
      | StepResult.panic => Outcome.panic
    else Outcome.ok st inp out

/-- `run` (main.rs lines 172-208): build the pairing table, return its error
without dispatching anything if it fails, else run the dispatch loop from
pc 0. `symbols` is the char sequence of the program. -/
def run (fuel : Nat) (program : List Char) (st : BfState) (inp : List Nat) : Outcome :=
  match build_pc_pairs program with
  | Except.error e => Outcome.err e st inp []
  | Except.ok pairs => runAux fuel program pairs 0 st inp []

def Outcome.isOk : Outcome → Bool
  | Outcome.ok _ _ _ => true
  | _ => false

def Outcome.errKind : Outcome → Option BfError
  | Outcome.err e _ _ _ => some e
  | _ => none

def Outcome.finalState : Outcome → Option BfState
  | Outcome.ok st _ _ => some st
  | Outcome.err _ st _ _ => some st
  | _ => none

def Outcome.finalCell (o : Outcome) (i : Nat) : Option Nat :=
  (o.finalState).map (fun st => st.memory.read i)

def Outcome.finalPointer (o : Outcome) : Option Nat :=
  (o.finalState).map (fun st => st.pointer)

def Outcome.outBytes : Outcome → Option (List Nat)
  | Outcome.ok _ _ out => some out
  | Outcome.err _ _ _ out => some out
  | _ => none

/-! ### Helper lemmas -/

lemma getD_set_self (l : List Nat) (i v : Nat) (h : i < l.length) :
    (l.set i v).getD i 0 = v := by
  simp [List.getD_eq_getElem?_getD, List.getElem?_set_self, h]

lemma listResize_length (l : List Nat) (n v : Nat) (h : l.length < n) :
    (listResize l n v).length = n := by
  unfold listResize
  rw [if_neg (by omega)]
  simp
  omega

lemma read_write_self (t : GrowableVect) (i v : Nat) :
    (t.write i v).read i = v := by
  unfold GrowableVect.write GrowableVect.read
  by_cases h : i ≥ t.arr.length
  · rw [if_pos h]
    simp only [List.length_set]
    rw [listResize_length _ _ _ (by omega)]
    rw [if_neg (by omega)]
    exact getD_set_self _ _ _ (by rw [listResize_length _ _ _ (by omega)]; omega)
  · rw [if_neg h]
    simp only [List.length_set]
    rw [if_neg h]
    exact getD_set_self _ _ _ (by omega)

lemma set_curr_curr (s : BfState) (v : Nat) : (s.set_curr v).curr = v := by
  unfold BfState.set_curr BfState.curr
  exact read_write_self _ _ _

lemma getD_set_ne (l : List Nat) (i j v : Nat) (hj : j ≠ i) :
    (l.set i v).getD j 0 = l.getD j 0 := by
  simp [List.getD_eq_getElem?_getD, List.getElem?_set_ne (by omega : i ≠ j)]

lemma getD_replicate_zero (n j : Nat) : (List.replicate n (0:Nat)).getD j 0 = 0 := by
  simp [List.getD_eq_getElem?_getD, List.getElem?_replicate]
  split <;> rfl

lemma wrap_pred_succ (n : Nat) (hlt : n < USIZE) :
    ((n + (USIZE - 1)) % USIZE + 1) % USIZE = n := by
  unfold USIZE at *
  omega

lemma left_error (s : BfState) (s' : BfState) (e : BfError)
    (h : s.left = (s', Except.error e)) : e = BfError.Segfault ∧ s' = s := by
  unfold BfState.left at h
  by_cases hp : s.pointer = 0
  · rw [if_pos hp] at h
    injection h with h1 h2
    injection h2 with h3
    exact ⟨h3.symm, h1.symm⟩
  · rw [if_neg hp] at h
    injection h with h1 h2
    injection h2

lemma step_fail_segfault (symbols : List Char) (pairs : List (Nat × Nat)) (pc : Nat)
    (st : BfState) (inp out : List Nat) (e : BfError) (st' : BfState) (inp' out' : List Nat)
    (h : step symbols pairs pc st inp out = StepResult.fail e st' inp' out') :
    e = BfError.Segfault := by
  simp only [step] at h
  repeat' split at h
  all_goals try cases h
  all_goals exact (left_error _ _ _ (by assumption)).1

lemma runAux_ne_mismatch (fuel : Nat) : ∀ (symbols : List Char) (pairs : List (Nat × Nat))
    (pc : Nat) (st : BfState) (inp out : List Nat) (st' : BfState) (inp' out' : List Nat),
    runAux fuel symbols pairs pc st inp out ≠
      Outcome.err BfError.MismatchedBraces st' inp' out' := by
  induction fuel with
  | zero => intro _ _ _ _ _ _ _ _ _ h; cases h
  | succ n ih =>
    intro symbols pairs pc st inp out st' inp' out' h
    unfold runAux at h
    split at h
    · split at h
      · exact ih _ _ _ _ _ _ _ _ _ h
      · rename_i e st1 inp1 out1 heq
        injection h with he
        exact BfError.noConfusion (he.symm.trans (step_fail_segfault _ _ _ _ _ _ _ _ _ _ heq))
      · cases h
    · cases h

/-! ### Claim theorems -/

set_option maxRecDepth 1000000

/-- C1: the program `++[>+<-]` run against a fresh state succeeds with cell 0
holding 0 and cell 1 holding 2, and the program `-[->+<]` run against a fresh
state succeeds with cell 0 holding 0 and cell 1 holding 255 (decrementing 0
wraps to 255 and the whole wrapped count is transferred). -/
theorem run_loop_end_to_end :
    (run 100 ['+','+','[','>','+','<','-',']'] BfState.new []).isOk = true ∧
    (run 100 ['+','+','[','>','+','<','-',']'] BfState.new []).finalCell 0 = some 0 ∧
    (run 100 ['+','+','[','>','+','<','-',']'] BfState.new []).finalCell 1 = some 2 ∧
    (run 2000 ['-','[','-','>','+','<',']'] BfState.new []).isOk = true ∧
    (run 2000 ['-','[','-','>','+','<',']'] BfState.new []).finalCell 0 = some 0 ∧
    (run 2000 ['-','[','-','>','+','<',']'] BfState.new []).finalCell 1 = some 255 := by
  decide

/-- C2 counterexample: in the program `+[-]` (pairing table [(1,3)]), the `]`
at offset 3 is paired with the `[` at offset 1; dispatching it continues at
offset 1 — the paired `[` itself — not at offset 1 + 1 as the claim states. -/
theorem close_bracket_jump_counterexample :
    build_pc_pairs ['+','[','-',']'] = Except.ok [(1,3)] ∧
    match_right_pc [(1,3)] 3 = some 1 ∧
    step ['+','[','-',']'] [(1,3)] 3 BfState.new [] [] =
      StepResult.cont 1 BfState.new [] [] ∧
    step ['+','[','-',']'] [(1,3)] 3 BfState.new [] [] ≠
      StepResult.cont (1 + 1) BfState.new [] [] :=
  ⟨rfl, rfl, rfl, by decide⟩

/-- C2 amended: when the dispatch loop executes a `]` at program counter pc
whose pairing lookup yields the open offset, the next instruction executed is
at the paired `[` offset itself (the `[` then re-tests the loop condition),
not at the offset after it. -/
theorem close_bracket_jump (symbols : List Char) (pairs : List (Nat × Nat)) (pc : Nat)
    (st : BfState) (inp out : List Nat) (openPc : Nat)
    (hsym : symbols.getD pc ' ' = ']')
    (hpair : match_right_pc pairs pc = some openPc)
    (hlt : openPc < USIZE) :
    step symbols pairs pc st inp out = StepResult.cont openPc st inp out := by
  simp only [step, hsym, hpair]
  simp only [Char.reduceEq, if_false, reduceIte]
  rw [wrap_pred_succ _ hlt]

/-- C2 amended, witness: in `+[-]` the `]` at offset 3 dispatches to offset 1. -/
theorem close_bracket_jump_witness :
    step ['+','[','-',']'] [(1,3)] 3 BfState.new [] [] =
      StepResult.cont 1 BfState.new [] [] :=
  close_bracket_jump _ _ _ _ _ _ _ (by decide) (by decide) (by decide)

/-- C3 counterexample: in the program `[]` with a fresh state (current cell 0),
the `[` at offset 0 is paired with the `]` at offset 1, yet dispatching it
continues at offset 2 (one past the paired `]`), not at the paired `]` offset
1 as the claim states. -/
theorem open_bracket_dispatch_counterexample :
    build_pc_pairs ['[',']'] = Except.ok [(0,1)] ∧
    match_left_pc [(0,1)] 0 = some 1 ∧
    BfState.new.curr = 0 ∧
    step ['[',']'] [(0,1)] 0 BfState.new [] [] = StepResult.cont 2 BfState.new [] [] ∧
    step ['[',']'] [(0,1)] 0 BfState.new [] [] ≠ StepResult.cont 1 BfState.new [] [] :=
  ⟨rfl, rfl, rfl, rfl, by decide⟩

/-- C3 amended: when the dispatch loop executes a `[` at program counter pc
whose pairing lookup yields the close offset: if the current cell is 0 the
next program counter is the offset one past the paired `]`
(paired-close-offset + 1), and if the current cell is nonzero execution falls
through to pc + 1. -/
theorem open_bracket_dispatch (symbols : List Char) (pairs : List (Nat × Nat)) (pc : Nat)
    (st : BfState) (inp out : List Nat) (closePc : Nat)
    (hsym : symbols.getD pc ' ' = '[')
    (hpair : match_left_pc pairs pc = some closePc)
    (hcl : closePc + 1 < USIZE) (hpc : pc + 1 < USIZE) :
    (st.curr = 0 →
      step symbols pairs pc st inp out = StepResult.cont (closePc + 1) st inp out) ∧
    (st.curr ≠ 0 →
      step symbols pairs pc st inp out = StepResult.cont (pc + 1) st inp out) := by
  constructor
  · intro hz
    simp only [step, hsym, hpair, hz]
    simp only [Char.reduceEq, if_false, reduceIte]
    rw [Nat.mod_eq_of_lt hcl]
  · intro hnz
    simp only [step, hsym, hnz]
    simp only [Char.reduceEq, if_false, reduceIte]
    rw [Nat.mod_eq_of_lt hpc]

/-- A state whose cell 0 holds 1, used to exercise the fall-through branch. -/
def stOne : BfState := { memory := { arr := [1], default_value := 0 }, pointer := 0 }

/-- C3 amended, witness: in `[]`, with cell 0 zero the `[` at offset 0
dispatches to offset 2; with cell 0 nonzero it falls through to offset 1. -/
theorem open_bracket_dispatch_witness :
    step ['[',']'] [(0,1)] 0 BfState.new [] [] = StepResult.cont (1 + 1) BfState.new [] [] ∧
    step ['[',']'] [(0,1)] 0 stOne [] [] = StepResult.cont (0 + 1) stOne [] [] :=
  ⟨(open_bracket_dispatch ['[',']'] [(0,1)] 0 BfState.new [] [] 1
      (by decide) (by decide) (by decide) (by decide)).1 (by decide),
   (open_bracket_dispatch ['[',']'] [(0,1)] 0 stOne [] [] 1
      (by decide) (by decide) (by decide) (by decide)).2 (by decide)⟩

/-- C4: moving left at pointer 0 returns Segfault and leaves the state (and
thus the pointer) unchanged; moving left at any positive pointer succeeds,
decreases the pointer by exactly 1 and leaves the memory untouched. -/
theorem left_pointer_boundary (s : BfState) :
    (s.pointer = 0 → s.left = (s, Except.error BfError.Segfault)) ∧
    (0 < s.pointer → (s.left).2 = Except.ok () ∧ (s.left).1.pointer + 1 = s.pointer ∧
      (s.left).1.memory = s.memory) := by
  constructor
  · intro h
    unfold BfState.left
    rw [if_pos h]
  · intro h
    unfold BfState.left
    rw [if_neg (by omega)]
    refine ⟨rfl, ?_, rfl⟩
    show s.pointer - 1 + 1 = s.pointer
    omega

/-- A fresh-tape state with the pointer at 5. -/
def ptrFive : BfState := { memory := GrowableVect.new, pointer := 5 }

/-- C4 witness: at pointer 0 the move fails with Segfault and changes nothing;
at pointer 5 it succeeds and lands on pointer 4. -/
theorem left_pointer_boundary_witness :
    (BfState.new.left = (BfState.new, Except.error BfError.Segfault)) ∧
    ((ptrFive.left).2 = Except.ok () ∧ (ptrFive.left).1.pointer + 1 = ptrFive.pointer ∧
      (ptrFive.left).1.memory = ptrFive.memory) :=
  ⟨(left_pointer_boundary BfState.new).1 rfl,
   (left_pointer_boundary ptrFive).2 (by decide)⟩

/-- C5: bracket pairing on `[]` yields exactly the pair (0,1); `[]]`, `[[]`
and `]` each fail with MismatchedBraces; `[[[]]]` and `[][][]` validate
successfully, recording one (open, close) pair per matched bracket. -/
theorem build_pc_pairs_examples :
    build_pc_pairs ['[',']'] = Except.ok [(0,1)] ∧
    build_pc_pairs ['[',']',']'] = Except.error BfError.MismatchedBraces ∧
    build_pc_pairs ['[','[',']'] = Except.error BfError.MismatchedBraces ∧
    build_pc_pairs [']'] = Except.error BfError.MismatchedBraces ∧
    build_pc_pairs ['[','[','[',']',']',']'] = Except.ok [(2,3),(1,4),(0,5)] ∧
    build_pc_pairs ['[',']','[',']','[',']'] = Except.ok [(0,1),(2,3),(4,5)] :=
  ⟨rfl, rfl, rfl, rfl, rfl, rfl⟩

/-- C6: whenever run returns MismatchedBraces, the supplied state is returned
exactly as given (the dispatch loop itself can only fail with Segfault), no
input was consumed and no output byte was emitted. -/
theorem run_mismatch_no_side_effects (fuel : Nat) (program : List Char)
    (st : BfState) (inp : List Nat) (st' : BfState) (inp' out' : List Nat)
    (h : run fuel program st inp = Outcome.err BfError.MismatchedBraces st' inp' out') :
    st' = st ∧ inp' = inp ∧ out' = [] := by
  unfold run at h
  split at h
  · injection h with he h1 h2 h3
    exact ⟨h1.symm, h2.symm, h3.symm⟩
  · exact absurd h (runAux_ne_mismatch _ _ _ _ _ _ _ _ _ _)

/-- C6 witness: the malformed program `+.]` is rejected with the fresh state,
the input and the empty output returned untouched. -/
theorem run_mismatch_no_side_effects_witness :
    BfState.new = BfState.new ∧ ([3] : List Nat) = [3] ∧ ([] : List Nat) = [] :=
  run_mismatch_no_side_effects 10 ['+','.',']'] BfState.new [3] BfState.new [3] []
    (by decide)

/-- C7: writing byte v at index i and immediately reading index i returns v;
reading any index of a fresh tape returns 0; after a write at index i, any
other index j that was never written still reads 0 (including indices beyond
the materialized length). Reads and writes are total functions, so neither
can fail. -/
theorem tape_round_trip (t : GrowableVect) (i v j : Nat) (hv : v < 256) (hj : j ≠ i) :
    (t.write i v).read i = v ∧
    GrowableVect.new.read i = 0 ∧
    (GrowableVect.new.write i v).read j = 0 := by
  refine ⟨read_write_self t i v, ?_, ?_⟩
  · simp [GrowableVect.read, GrowableVect.new]
  · unfold GrowableVect.write GrowableVect.read GrowableVect.new listResize
    simp only [List.length_nil, ge_iff_le, Nat.zero_le, if_true, List.nil_append,
      Nat.sub_zero]
    rw [if_neg (by omega : ¬ (i + 1 ≤ 0))]
    simp only [List.length_set, List.length_replicate]
    by_cases h : i + 1 ≤ j
    · rw [if_pos h]
    · rw [if_neg h]
      rw [getD_set_ne _ _ _ _ hj, getD_replicate_zero]

/-- C7 witness: on the tape [9, 9], writing 7 at index 3 and reading it back
gives 7; a fresh tape reads 0 at index 3; after writing 7 at index 3 of a
fresh tape, index 1 still reads 0. -/
theorem tape_round_trip_witness :
    (GrowableVect.write { arr := [9, 9], default_value := 0 } 3 7).read 3 = 7 ∧
    GrowableVect.new.read 3 = 0 ∧
    (GrowableVect.new.write 3 7).read 1 = 0 :=
  tape_round_trip { arr := [9, 9], default_value := 0 } 3 7 1 (by decide) (by decide)

/-- C8: incrementing and decrementing the current cell use wrap-around byte
arithmetic modulo 256: the new cell value is the old one plus 1 (resp. plus
255) modulo 256, so a cell holding 255 increments to 0 and a cell holding 0
decrements to 255. Both operations are total, so neither can fail. -/
theorem cell_arith_wrap (s : BfState) :
    ((s.inc).curr = (s.curr + 1) % 256) ∧
    ((s.dec).curr = (s.curr + 255) % 256) ∧
    (s.curr = 255 → (s.inc).curr = 0) ∧
    (s.curr = 0 → (s.dec).curr = 255) := by
  have hi : (s.inc).curr = (s.curr + 1) % 256 := set_curr_curr _ _
  have hd : (s.dec).curr = (s.curr + 255) % 256 := set_curr_curr _ _
  refine ⟨hi, hd, fun h => ?_, fun h => ?_⟩
  · rw [hi, h]
  · rw [hd, h]

/-- A state whose cell 0 holds 255, used to exercise increment overflow. -/
def cell255 : BfState := { memory := { arr := [255], default_value := 0 }, pointer := 0 }

/-- C8 witness: incrementing a cell holding 255 yields 0 and decrementing a
fresh cell (holding 0) yields 255. -/
theorem cell_arith_wrap_witness :
    (cell255.inc).curr = 0 ∧ (BfState.new.dec).curr = 255 :=
  ⟨(cell_arith_wrap cell255).2.2.1 (by decide),
   (cell_arith_wrap BfState.new).2.2.2 (by decide)⟩

/-- C9: the claim fails on the code. `build_pc_pairs` records UTF-8 byte
offsets (from `char_indices`), while the dispatch loop indexes a vector of
chars, so the two offset spaces disagree on any program with a multi-byte
character. For the program `é[]` pairing succeeds with the byte-offset pair
(2,3), but the `[` is dispatched at char offset 1, where the lookup finds
nothing and the unwrap panics — even though validation succeeded. -/
theorem pairing_lookup_panics_after_validation :
    build_pc_pairs ['é','[',']'] = Except.ok [(2,3)] ∧
    match_left_pc [(2,3)] 1 = none ∧
    run 10 ['é','[',']'] BfState.new [] = Outcome.panic :=
  ⟨rfl, rfl, by decide⟩

/-- C10: run is deterministic: from equal execution states (with the same
program, fuel and input) the two runs agree on the full outcome and hence on
success, error kind, final state, final pointer and emitted output bytes. -/
theorem run_deterministic (fuel : Nat) (program : List Char) (inp : List Nat)
    (s1 s2 : BfState) (h : s1 = s2) :
    run fuel program s1 inp = run fuel program s2 inp ∧
    (run fuel program s1 inp).isOk = (run fuel program s2 inp).isOk ∧
    (run fuel program s1 inp).errKind = (run fuel program s2 inp).errKind ∧
    (run fuel program s1 inp).finalState = (run fuel program s2 inp).finalState ∧
    (run fuel program s1 inp).finalPointer = (run fuel program s2 inp).finalPointer ∧
    (run fuel program s1 inp).outBytes = (run fuel program s2 inp).outBytes := by
  subst h
  exact ⟨rfl, rfl, rfl, rfl, rfl, rfl⟩

/-- C10 witness: two runs of `+.` from fresh states agree on everything. -/
theorem run_deterministic_witness :
    run 100 ['+','.'] BfState.new [] = run 100 ['+','.'] BfState.new [] ∧
    (run 100 ['+','.'] BfState.new []).isOk = (run 100 ['+','.'] BfState.new []).isOk ∧
    (run 100 ['+','.'] BfState.new []).errKind =
      (run 100 ['+','.'] BfState.new []).errKind ∧
    (run 100 ['+','.'] BfState.new []).finalState =
      (run 100 ['+','.'] BfState.new []).finalState ∧
    (run 100 ['+','.'] BfState.new []).finalPointer =
      (run 100 ['+','.'] BfState.new []).finalPointer ∧
    (run 100 ['+','.'] BfState.new []).outBytes =
      (run 100 ['+','.'] BfState.new []).outBytes :=
  run_deterministic 100 ['+','.'] [] BfState.new BfState.new rfl
